import Mathlib

/-!
Shallow embedding of `llama_cpp_python/server/app.py` (the OpenAI-compatible
HTTP gateway) and proofs of its specified properties: the two-lock access
gate (`get_llama_proxy`), the SSE streaming publisher
(`get_event_publisher`), embedding-model resolution (`create_embedding`),
bearer authentication (`authenticate`), logit-bias resolution, request
shaping for the completion endpoints, and the model-info endpoint.
-/

namespace LlamaServer

/-! ## Access Gate (`get_llama_proxy`, app.py lines 75-91)

The generator acquires `llama_outer_lock`, sets `release_outer_lock = True`,
then inside a `try` acquires `llama_inner_lock`, inside a nested `try`
releases the outer lock, clears the flag and yields; the inner `finally`
releases the inner lock and the outer `finally` releases the outer lock
only when the flag is still set.

We embed the generator as a straight-line state transformer over the lock
state, with one `Bool` per statement that can raise: `innerOk` is whether
the (blocking) inner acquire completes rather than being interrupted by
cancellation, and `bodyOk` is whether the caller's scope around the yield
point finishes normally rather than throwing an exception into the
generator.  `try/finally` is embedded by the `tryFinally` combinator:
the finalizer runs on both the normal and the exceptional path and the
body's outcome propagates. -/

inductive LockEv where
  | acqOuter | acqInner | relOuter | relInner | yieldPt
  deriving DecidableEq, Repr

structure GateSt where
  outerHeld : Bool
  innerHeld : Bool
  releaseOuterFlag : Bool
  trace : List LockEv
  deriving DecidableEq, Repr

def GateSt.init : GateSt :=
  { outerHeld := false, innerHeld := false, releaseOuterFlag := false, trace := [] }

def GateSt.ev (s : GateSt) (e : LockEv) : GateSt := { s with trace := s.trace ++ [e] }

def acquireOuter (s : GateSt) : GateSt := { s.ev .acqOuter with outerHeld := true }

def acquireInner (s : GateSt) : GateSt := { s.ev .acqInner with innerHeld := true }

def releaseOuter (s : GateSt) : GateSt := { s.ev .relOuter with outerHeld := false }

def releaseInner (s : GateSt) : GateSt := { s.ev .relInner with innerHeld := false }

/-- Embedding of `try body finally fin`: the finalizer runs whether or not the body
raised, and the body's outcome (ok / exception) propagates. -/
def tryFinally (body : GateSt → Except Unit Unit × GateSt) (fin : GateSt → GateSt)
    (s : GateSt) : Except Unit Unit × GateSt :=
  let (r, s') := body s
  (r, fin s')

/-- Embedding of `get_llama_proxy` (app.py 75-91).  `innerOk = false` models the inner
acquire being interrupted (e.g. cancellation while blocked); `bodyOk =
false` models an exception thrown into the generator at the yield point.
The returned `Except` is the generator's outcome as seen by its caller. -/
def get_llama_proxy (innerOk bodyOk : Bool) : Except Unit Unit × GateSt :=
  let s := acquireOuter GateSt.init
  let s := { s with releaseOuterFlag := true }
  tryFinally
    (fun s =>
      if innerOk then
        let s := acquireInner s
        tryFinally
          (fun s =>
            let s := releaseOuter s
            let s := { s with releaseOuterFlag := false }
            let s := s.ev .yieldPt
            (if bodyOk then Except.ok () else Except.error (), s))
          releaseInner s
      else (Except.error (), s))
    (fun s => if s.releaseOuterFlag then releaseOuter s else s)
    s

/-- C1: every execution of the Access Gate acquire (`get_llama_proxy`)
acquires the outer lock, then the inner lock, then releases the outer lock
before the proxy is yielded (the trace on any path where the inner lock was
acquired is exactly `acqOuter, acqInner, relOuter, yieldPt, relInner`, so
the inner lock is released on every exit of the scope — normal return,
exception or cancellation alike); when the yield point is never reached
because the inner acquire was interrupted, the outer lock is released
instead (trace `acqOuter, relOuter`); and after the scope exits the caller
holds neither lock. -/
theorem C1_access_gate_protocol (innerOk bodyOk : Bool) :
    (get_llama_proxy innerOk bodyOk).2.outerHeld = false ∧
    (get_llama_proxy innerOk bodyOk).2.innerHeld = false ∧
    (get_llama_proxy innerOk bodyOk).2.trace =
      (if innerOk then
        [LockEv.acqOuter, LockEv.acqInner, LockEv.relOuter, LockEv.yieldPt, LockEv.relInner]
       else [LockEv.acqOuter, LockEv.relOuter]) := by
  cases innerOk <;> cases bodyOk <;> exact ⟨rfl, rfl, rfl⟩

/-! ## Streaming Publisher (`get_event_publisher`, app.py 166-193, together
with the wrapping `iterator()` of `create_completion` / `create_chat_completion`,
app.py 336-350 and 565-579)

The publisher loop pulls chunks from the wrapped iterator; per chunk it
sends `dict(data=json.dumps(chunk))`, then checks `request.is_disconnected()`
(raising a cancellation if true), then checks
`interrupt_requests and llama_outer_lock.locked()` (sending
`dict(data="[DONE]")` and raising a cancellation if true).  When the
iterator is exhausted it sends a final `[DONE]`.  The wrapped iterator
yields `first_response`, then the remaining chunks, then calls
`exit_stack.close()` at its tail; the publisher's `finally` calls
`on_complete`, which is the same `exit_stack.close`.

Embedding: chunks are the list of values the underlying engine iterator
would yield; `disc i` / `locked i` are the oracle values of
`request.is_disconnected()` / `llama_outer_lock.locked()` observed right
after chunk `i` was sent.  The exit stack is modelled by its real
semantics: it holds one registered cleanup callback (the gate-token /
per-request resource release); `close` runs all still-registered callbacks
and unregisters them, so a second `close` has no effect.  `effects`
counts how many times the cleanup callback actually ran. -/

inductive Frame (α : Type) where
  /-- An SSE event `dict(data=json.dumps(chunk))`. -/
  | chunk : α → Frame α
  /-- The SSE event `dict(data="[DONE]")`. -/
  | done : Frame α
  deriving DecidableEq, Repr

structure PubSt (α : Type) where
  sent : List (Frame α)
  pulled : Nat
  /-- The exit stack still holds its registered cleanup callback. -/
  stackPending : Bool
  /-- Number of times the cleanup callback's effect has run. -/
  effects : Nat
  deriving DecidableEq, Repr

def PubSt.init (α : Type) : PubSt α :=
  { sent := [], pulled := 0, stackPending := true, effects := 0 }

/-- Embedding of `contextlib.ExitStack.close`: run the registered callbacks (here: one)
and unregister them; a later `close` finds nothing left to run. -/
def closeStack {α : Type} (s : PubSt α) : PubSt α :=
  if s.stackPending then { s with stackPending := false, effects := s.effects + 1 } else s

/-- The `async for` loop of `get_event_publisher` over the wrapped
iterator.  Returns the final state and whether the loop ended by raising a
cancellation (`true`) rather than by iterator exhaustion (`false`).
On exhaustion the wrapped iterator's tail runs `exit_stack.close()` and
then the publisher sends the final `[DONE]`. -/
def pubLoop {α : Type} (interrupt : Bool) (disc locked : Nat → Bool) :
    List α → Nat → PubSt α → PubSt α × Bool
  | [], _, s =>
      let s := closeStack s
      ({ s with sent := s.sent ++ [Frame.done] }, false)
  | c :: rest, i, s =>
      let s := { s with pulled := s.pulled + 1, sent := s.sent ++ [Frame.chunk c] }
      if disc i then (s, true)
      else if interrupt && locked i then
        ({ s with sent := s.sent ++ [Frame.done] }, true)
      else pubLoop interrupt disc locked rest (i + 1) s

/-- Embedding of `get_event_publisher` (app.py 166-193): run the loop, then the
`finally` block calls `on_complete = exit_stack.close`. -/
def get_event_publisher {α : Type} (interrupt : Bool) (disc locked : Nat → Bool)
    (chunks : List α) : PubSt α × Bool :=
  let (s, aborted) := pubLoop interrupt disc locked chunks 0 (PubSt.init α)
  (closeStack s, aborted)

lemma closeStack_sent {α : Type} (s : PubSt α) : (closeStack s).sent = s.sent := by
  unfold closeStack; split <;> rfl

lemma closeStack_pulled {α : Type} (s : PubSt α) : (closeStack s).pulled = s.pulled := by
  unfold closeStack; split <;> rfl

lemma closeStack_effects {α : Type} (s : PubSt α) :
    (closeStack s).effects = s.effects + (if s.stackPending then 1 else 0) := by
  unfold closeStack; split <;> simp

lemma closeStack_stackPending {α : Type} (s : PubSt α) :
    (closeStack s).stackPending = false := by
  unfold closeStack; split
  · rfl
  · rename_i h; simpa using h

lemma get_event_publisher_eq {α : Type} (interrupt : Bool) (disc locked : Nat → Bool)
    (chunks : List α) :
    get_event_publisher interrupt disc locked chunks =
      (closeStack (pubLoop interrupt disc locked chunks 0 (PubSt.init α)).1,
       (pubLoop interrupt disc locked chunks 0 (PubSt.init α)).2) := by
  unfold get_event_publisher
  rcases h : pubLoop interrupt disc locked chunks 0 (PubSt.init α) with ⟨s, a⟩
  rfl

/-- The loop preserves the quantity `effects + (1 if the cleanup callback is
still registered)`: the callback's effect can only come from unregistering
it. -/
lemma pubLoop_effects_invariant {α : Type} (interrupt : Bool) (disc locked : Nat → Bool) :
    ∀ (chunks : List α) (i : Nat) (s : PubSt α),
      (pubLoop interrupt disc locked chunks i s).1.effects
          + (if (pubLoop interrupt disc locked chunks i s).1.stackPending then 1 else 0)
        = s.effects + (if s.stackPending then 1 else 0)
  | [], i, s => by
      simp only [pubLoop, closeStack]
      split <;> simp
  | c :: rest, i, s => by
      simp only [pubLoop]
      split
      · rfl
      · split
        · rfl
        · exact pubLoop_effects_invariant interrupt disc locked rest (i + 1) _

lemma pubLoop_closed_stackPending {α : Type} (interrupt : Bool) (disc locked : Nat → Bool) :
    ∀ (chunks : List α) (i : Nat) (s : PubSt α),
      (pubLoop interrupt disc locked chunks i s).1.stackPending = true →
      s.stackPending = true
  | [], i, s => by
      simp only [pubLoop, closeStack]
      split
      · intro h; exact absurd h (by simp)
      · intro h; simpa using h
  | c :: rest, i, s => by
      simp only [pubLoop]
      split
      · exact fun h => h
      · split
        · exact fun h => h
        · exact pubLoop_closed_stackPending interrupt disc locked rest (i + 1) _

/-- C3: for every streaming session — whatever the chunk sequence, the
disconnect oracle and the contention oracle, hence on each of the three
exit paths (iterator exhausted, client disconnected, contention
interrupt) — the cleanup callback registered on the exit stack runs its
effect exactly once, even though `exit_stack.close` is reached both from
the wrapped iterator's tail and from the publisher's `finally` block. -/
theorem C3_cleanup_exactly_once {α : Type} (interrupt : Bool) (disc locked : Nat → Bool)
    (chunks : List α) :
    (get_event_publisher interrupt disc locked chunks).1.effects = 1 ∧
    (get_event_publisher interrupt disc locked chunks).1.stackPending = false := by
  rw [get_event_publisher_eq]
  have hinv := pubLoop_effects_invariant interrupt disc locked chunks 0 (PubSt.init α)
  have h0 : (PubSt.init α).effects + (if (PubSt.init α).stackPending = true then 1 else 0) = 1 :=
    rfl
  rw [h0] at hinv
  refine ⟨?_, closeStack_stackPending _⟩
  rw [closeStack_effects]
  omega

/-- Running the loop across a clean prefix (no disconnect, no observed
contention while interrupt is enabled) just sends the chunks of the prefix
and advances the index. -/
lemma pubLoop_skip {α : Type} (interrupt : Bool) (disc locked : Nat → Bool) :
    ∀ (n : Nat) (chunks : List α) (k : Nat) (s : PubSt α),
      n ≤ chunks.length →
      (∀ j, k ≤ j → j < k + n → disc j = false ∧ (interrupt && locked j) = false) →
      pubLoop interrupt disc locked chunks k s =
        pubLoop interrupt disc locked (chunks.drop n) (k + n)
          { s with pulled := s.pulled + n,
                   sent := s.sent ++ (chunks.take n).map Frame.chunk }
  | 0, chunks, k, s, _, _ => by simp
  | n + 1, [], k, s, hlen, _ => by simp at hlen
  | n + 1, c :: rest, k, s, hlen, hclean => by
      have hd : disc k = false := (hclean k le_rfl (by omega)).1
      have hl : (interrupt && locked k) = false := (hclean k le_rfl (by omega)).2
      simp only [pubLoop, hd, hl, Bool.false_eq_true, if_false]
      rw [pubLoop_skip interrupt disc locked n rest (k + 1)
            { s with pulled := s.pulled + 1, sent := s.sent ++ [Frame.chunk c] }
            (by simpa using hlen)
            (fun j h1 h2 => hclean j (by omega) (by omega))]
      simp only [List.drop_succ_cons, List.take_succ_cons, List.map_cons]
      have h1 : k + 1 + n = k + (n + 1) := by omega
      have h2 : s.pulled + 1 + n = s.pulled + (n + 1) := by omega
      rw [h1, h2, List.append_assoc]
      rfl

lemma count_done_in_chunks_append {α : Type} [DecidableEq α] (l : List α) :
    ((l.map Frame.chunk) ++ [Frame.done]).count (Frame.done : Frame α) = 1 := by
  rw [List.count_append]
  have h : (l.map Frame.chunk).count (Frame.done : Frame α) = 0 :=
    List.count_eq_zero.mpr (by simp)
  simp [h]

/-- C2: when `interrupt_requests` is enabled and, right after chunk `i`
was sent, the client is still connected (`disc i = false`) but the outer
lock is observed held (`locked i = true`) — the stream having run clean up
to that point — the publisher sends exactly one `[DONE]` data frame after
the already-sent chunks and aborts: it pulls no chunk beyond index `i`. -/
theorem C2_contention_interrupt {α : Type} [DecidableEq α] (disc locked : Nat → Bool)
    (chunks : List α) (i : Nat)
    (hlen : i < chunks.length)
    (hclean : ∀ j, j < i → disc j = false ∧ locked j = false)
    (hdisc : disc i = false) (hlock : locked i = true) :
    (get_event_publisher true disc locked chunks).1.sent
        = (chunks.take (i + 1)).map Frame.chunk ++ [Frame.done] ∧
    (get_event_publisher true disc locked chunks).1.sent.count (Frame.done : Frame α) = 1 ∧
    (get_event_publisher true disc locked chunks).1.pulled = i + 1 ∧
    (get_event_publisher true disc locked chunks).2 = true := by
  have hskip := pubLoop_skip true disc locked i chunks 0 (PubSt.init α)
    (le_of_lt hlen)
    (fun j h1 h2 => ⟨(hclean j (by omega)).1, by simp [(hclean j (by omega)).2]⟩)
  have htake : (chunks.take (i + 1)).map Frame.chunk
      = (chunks.take i).map Frame.chunk ++ [Frame.chunk chunks[i]] := by
    have hsome : (some chunks[i]).toList = [chunks[i]] := rfl
    rw [List.take_succ, List.getElem?_eq_getElem hlen, hsome, List.map_append]
    rfl
  have hrun : pubLoop true disc locked chunks 0 (PubSt.init α)
      = ({ sent := (chunks.take (i + 1)).map Frame.chunk ++ [Frame.done],
           pulled := i + 1, stackPending := true, effects := 0 }, true) := by
    rw [hskip, List.drop_eq_getElem_cons hlen]
    simp only [pubLoop, PubSt.init, Nat.zero_add, hdisc, hlock, Bool.true_and,
      Bool.false_eq_true, if_false, if_true, List.nil_append]
    rw [htake]
  rw [get_event_publisher_eq, hrun]
  have hsent : (closeStack
      ({ sent := (chunks.take (i + 1)).map Frame.chunk ++ [Frame.done],
         pulled := i + 1, stackPending := true, effects := 0 } : PubSt α)).sent
      = (chunks.take (i + 1)).map Frame.chunk ++ [Frame.done] := closeStack_sent _
  refine ⟨hsent, ?_, closeStack_pulled _, rfl⟩
  rw [hsent]
  exact count_done_in_chunks_append (chunks.take (i + 1))

/-- Witness for C2 at a concrete input: three chunks, never-disconnecting
client, outer lock held from the start: the publisher sends chunk `10`,
then a single `[DONE]`, and aborts after pulling one chunk. -/
theorem C2_witness :
    (get_event_publisher true (fun _ => false) (fun _ => true) ([10, 20, 30] : List Nat)).1.sent
        = [Frame.chunk 10, Frame.done] ∧
    (get_event_publisher true (fun _ => false) (fun _ => true)
        ([10, 20, 30] : List Nat)).1.sent.count (Frame.done : Frame Nat) = 1 ∧
    (get_event_publisher true (fun _ => false) (fun _ => true)
        ([10, 20, 30] : List Nat)).1.pulled = 1 ∧
    (get_event_publisher true (fun _ => false) (fun _ => true) ([10, 20, 30] : List Nat)).2
        = true := by
  have h := C2_contention_interrupt (fun _ => false) (fun _ => true)
    ([10, 20, 30] : List Nat) 0 (by decide)
    (fun j hj => absurd hj (Nat.not_lt_zero j)) rfl rfl
  simpa using h

/-- C4: the client-disconnect condition is evaluated right after each
chunk is sent: when it first turns true at chunk `i` (the stream having
run clean before), the publisher aborts having sent exactly the chunks up
to `i`, with no `[DONE]` frame and no further pull; nothing beyond the
chunk data frames is sent to the client, so the disconnect is not reported
to the client as an error. -/
theorem C4_disconnect_abort {α : Type} (interrupt : Bool) (disc locked : Nat → Bool)
    (chunks : List α) (i : Nat)
    (hlen : i < chunks.length)
    (hclean : ∀ j, j < i → disc j = false ∧ (interrupt && locked j) = false)
    (hdisc : disc i = true) :
    (get_event_publisher interrupt disc locked chunks).1.sent
        = (chunks.take (i + 1)).map Frame.chunk ∧
    (Frame.done : Frame α) ∉ (get_event_publisher interrupt disc locked chunks).1.sent ∧
    (get_event_publisher interrupt disc locked chunks).1.pulled = i + 1 ∧
    (get_event_publisher interrupt disc locked chunks).2 = true := by
  have hskip := pubLoop_skip interrupt disc locked i chunks 0 (PubSt.init α)
    (le_of_lt hlen) (fun j h1 h2 => hclean j (by omega))
  have htake : (chunks.take (i + 1)).map Frame.chunk
      = (chunks.take i).map Frame.chunk ++ [Frame.chunk chunks[i]] := by
    have hsome : (some chunks[i]).toList = [chunks[i]] := rfl
    rw [List.take_succ, List.getElem?_eq_getElem hlen, hsome, List.map_append]
    rfl
  have hrun : pubLoop interrupt disc locked chunks 0 (PubSt.init α)
      = ({ sent := (chunks.take (i + 1)).map Frame.chunk,
           pulled := i + 1, stackPending := true, effects := 0 }, true) := by
    rw [hskip, List.drop_eq_getElem_cons hlen]
    simp only [pubLoop, PubSt.init, Nat.zero_add, hdisc, if_true, List.nil_append]
    rw [htake]
  rw [get_event_publisher_eq, hrun]
  have hsent : (closeStack
      ({ sent := (chunks.take (i + 1)).map Frame.chunk,
         pulled := i + 1, stackPending := true, effects := 0 } : PubSt α)).sent
      = (chunks.take (i + 1)).map Frame.chunk := closeStack_sent _
  refine ⟨hsent, ?_, closeStack_pulled _, rfl⟩
  rw [hsent]
  intro hmem
  rcases List.mem_map.mp hmem with ⟨c, -, hc⟩
  exact Frame.noConfusion hc

/-- Witness for C4 at a concrete input: the client disconnects right after
the second chunk; the publisher sends the two chunks, no `[DONE]`, and
pulls nothing further. -/
theorem C4_witness :
    (get_event_publisher false (fun j => j == 1) (fun _ => false)
        ([10, 20, 30] : List Nat)).1.sent = [Frame.chunk 10, Frame.chunk 20] ∧
    (Frame.done : Frame Nat) ∉ (get_event_publisher false (fun j => j == 1) (fun _ => false)
        ([10, 20, 30] : List Nat)).1.sent ∧
    (get_event_publisher false (fun j => j == 1) (fun _ => false)
        ([10, 20, 30] : List Nat)).1.pulled = 2 ∧
    (get_event_publisher false (fun j => j == 1) (fun _ => false)
        ([10, 20, 30] : List Nat)).2 = true := by
  have h := C4_disconnect_abort false (fun j => j == 1) (fun _ => false)
    ([10, 20, 30] : List Nat) 1 (by decide)
    (fun j hj => by interval_cases j; exact ⟨rfl, rfl⟩) rfl
  simpa using h

/-! ## Embedding-model resolution (`create_embedding`, app.py 364-377)

The endpoint iterates over `_model_settings` in configuration order; for
each entry it first tests `request.model is None and model.embedding`
(pick the first embedding-capable entry when no model is specified), then
`model.embedding and (request.model == model.model or request.model ==
model.model_alias)`; the first entry to satisfy either test is chosen and
the loop breaks.  If no entry is chosen, a `ValueError` is raised.

`ModelSettings` keeps only the fields this endpoint reads.  Python's `==`
between an optional request model and the optional `model_alias` is exact
`Option` equality; `request.model == model.model` compares against the
always-present model path, i.e. `requestModel = some m.model`. -/

structure ModelSettings where
  /-- Field `model`: the model path (always present). -/
  model : String
  /-- Field `model_alias`: optional user-facing alias. -/
  model_alias : Option String
  /-- Field `embedding`: embedding-capability flag. -/
  embedding : Bool
  deriving DecidableEq, Repr

/-- The loop body's combined test for one configuration entry, in the
source's evaluation order. -/
def embeddingEntryMatches (requestModel : Option String) (m : ModelSettings) : Bool :=
  (requestModel.isNone && m.embedding)
    || (m.embedding && (requestModel == some m.model || requestModel == m.model_alias))

/-- The `for model in _model_settings` loop of `create_embedding`
(app.py 368-375): returns the first entry selected by the loop, `none`
when the loop falls through with `setting is None`. -/
def create_embedding_setting (requestModel : Option String) :
    List ModelSettings → Option ModelSettings
  | [] => none
  | m :: rest =>
      if requestModel.isNone && m.embedding then some m
      else if m.embedding && (requestModel == some m.model || requestModel == m.model_alias)
      then some m
      else create_embedding_setting requestModel rest

/-- Resolution outcome of `create_embedding` (app.py 376-377): the chosen
settings entry, or the `ValueError` raised when none matched. -/
def create_embedding_resolve (requestModel : Option String) (settings : List ModelSettings) :
    Except String ModelSettings :=
  match create_embedding_setting requestModel settings with
  | some m => Except.ok m
  | none => Except.error
      "no embedding model or no match correct embedding model name. use embedding=True to note embedding model"

/-- C5 counterexample: the claim says resolution prefers an exact
alias match over an alias-or-model-name match.  With a first
embedding-capable entry whose model *name* is `X` and a second
embedding-capable entry whose *alias* is `X`, a request for `X` is
resolved to the first entry (single pass, first match wins), not to the
entry with the exact alias match — so the claimed preference order is
false on the code. -/
theorem C5_counterexample :
    create_embedding_resolve (some "X")
        [⟨"X", some "a1", true⟩, ⟨"m2", some "X", true⟩]
      = Except.ok ⟨"X", some "a1", true⟩ ∧
    (⟨"m2", some "X", true⟩ : ModelSettings).model_alias = some "X" ∧
    (⟨"m2", some "X", true⟩ : ModelSettings).embedding = true ∧
    (⟨"X", some "a1", true⟩ : ModelSettings).model_alias ≠ some "X" := by
  refine ⟨rfl, rfl, rfl, ?_⟩
  intro h
  simp at h

/-- C5 amended: resolution is a single pass over the configured model
list in configuration order, choosing the *first* entry that is
embedding-capable and either (a) no model was specified, or (b) the
requested model equals the entry's model name or its alias; when no entry
qualifies the request fails with the `ValueError` (`NoEmbeddingModel`).
In particular, with `model = null` the first embedding-capable entry is
chosen, and an alias matching only the second of two embedding-capable
entries selects the second. -/
theorem C5_resolution_first_match (requestModel : Option String)
    (settings : List ModelSettings) :
    create_embedding_resolve requestModel settings
      = (match settings.find? (embeddingEntryMatches requestModel) with
         | some m => Except.ok m
         | none => Except.error
             "no embedding model or no match correct embedding model name. use embedding=True to note embedding model") := by
  unfold create_embedding_resolve
  congr 1
  induction settings with
  | nil => rfl
  | cons m rest ih =>
      unfold create_embedding_setting
      rw [List.find?_cons]
      unfold embeddingEntryMatches
      rcases h1 : (requestModel.isNone && m.embedding) with _ | _
      · rcases h2 : (m.embedding
            && (requestModel == some m.model || requestModel == m.model_alias)) with _ | _
        · simp only [h1, h2, Bool.false_or, if_false, Bool.false_eq_true]
          exact ih
        · simp [h1, h2]
      · simp [h1]

/-! ## Bearer authentication (`authenticate`, app.py 212-229, and the
router's per-endpoint `dependencies=[Depends(authenticate)]` declarations)

`authenticate` returns immediately when `settings.api_key` is not set;
otherwise it succeeds exactly when bearer credentials are present and
equal to the configured key, and raises HTTP 401 otherwise.  `authRoutes`
records, for each route registered on the router, whether its decorator
lists `Depends(authenticate)` — every route in app.py does, including
`GET /v1/internal/model/info` (app.py 659-664). -/

def authenticate (api_key : Option String) (credentials : Option String) :
    Except Nat Unit :=
  match api_key with
  | none => Except.ok ()
  | some key =>
      match credentials with
      | some creds => if creds = key then Except.ok () else Except.error 401
      | none => Except.error 401

/-- Each registered route path, paired with whether its decorator carries
`dependencies=[Depends(authenticate)]` (app.py 235-273, 358-363, 410-441,
588-593, 614-653, 659-664). -/
def authRoutes : List (String × Bool) :=
  [("/v1/completions", true),
   ("/v1/engines/copilot-codex/completions", true),
   ("/v1/embeddings", true),
   ("/v1/chat/completions", true),
   ("/v1/models", true),
   ("/extras/tokenize", true),
   ("/extras/tokenize/count", true),
   ("/extras/detokenize", true),
   ("/v1/internal/model/info", true)]

/-- C6 counterexample: the claim exempts the introspection endpoint
from the authentication requirement, but the route decorator of
`GET /v1/internal/model/info` lists `Depends(authenticate)` like every
other route, so the exemption is false on the code. -/
theorem C6_counterexample :
    ¬ (authRoutes.lookup "/v1/internal/model/info" = some false) := by
  decide

/-- C6 amended: when no API key is configured, `authenticate` succeeds
for every request; when a key is configured, a request succeeds exactly
when it carries bearer credentials equal to the key, and otherwise fails
with HTTP 401 — and this requirement applies to *every* registered
endpoint, including the introspection endpoint. -/
theorem C6_authentication (credentials : Option String) (key : String) :
    authenticate none credentials = Except.ok () ∧
    authenticate (some key) credentials
      = (if credentials = some key then Except.ok () else Except.error 401) ∧
    authRoutes.all Prod.snd = true := by
  refine ⟨rfl, ?_, by decide⟩
  cases credentials <;> simp [authenticate]

/-! ## Logit-bias resolution (`_logit_bias_tokens_to_input_ids`,
app.py 196-205, and its call site app.py 306-311 / 536-541)

The helper iterates over the `logit_bias` dict in insertion order, UTF-8
encodes each key, tokenizes it with `add_bos=False, special=True`, and
assigns `to_bias[str(input_id)] = score` for each produced token id.  The
call site passes the helper's result when `logit_bias_type == "tokens"`
and the original map otherwise.

Embedding: the engine tokenizer is an opaque function of the byte string
and the two flags; Python dicts are insertion-ordered association lists
with unique keys, and dict assignment (`dictInsert`) updates an existing
key in place or appends a fresh one.  Scores are opaque (the code never
computes with them), so they are a type parameter. -/

def dictInsert {α : Type} (k : String) (v : α) : List (String × α) → List (String × α)
  | [] => [(k, v)]
  | (k', v') :: rest => if k' = k then (k', v) :: rest else (k', v') :: dictInsert k v rest

/-- Python dict lookup `d[q]` on the insertion-ordered association list. -/
def dictGet {α : Type} (q : String) : List (String × α) → Option α
  | [] => none
  | (k, v) :: rest => if k = q then some v else dictGet q rest

/-- Embedding of `_logit_bias_tokens_to_input_ids` (app.py 196-205). -/
def logit_bias_tokens_to_input_ids {α : Type} (tokenize : ByteArray → Bool → Bool → List Nat)
    (logit_bias : List (String × α)) : List (String × α) :=
  logit_bias.foldl
    (fun to_bias kv =>
      (tokenize kv.1.toUTF8 false true).foldl
        (fun d input_id => dictInsert (toString input_id) kv.2 d) to_bias)
    []

/-- The call site (app.py 306-311): the value bound to `kwargs["logit_bias"]`
when `body.logit_bias is not None`. -/
def kwargs_logit_bias {α : Type} (tokenize : ByteArray → Bool → Bool → List Nat)
    (logit_bias : List (String × α)) (logit_bias_type : Option String) :
    List (String × α) :=
  if logit_bias_type = some "tokens" then logit_bias_tokens_to_input_ids tokenize logit_bias
  else logit_bias

lemma dictGet_dictInsert {α : Type} (q k : String) (v : α) (d : List (String × α)) :
    dictGet q (dictInsert k v d) = if q = k then some v else dictGet q d := by
  induction d with
  | nil =>
      by_cases h : q = k
      · simp [dictInsert, dictGet, h]
      · have h' : ¬ k = q := fun h2 => h h2.symm
        simp [dictInsert, dictGet, h, h']
  | cons hd tl ih =>
      rcases hd with ⟨k', v'⟩
      by_cases h1 : k' = k
      · subst h1
        by_cases h2 : q = k'
        · simp [dictInsert, dictGet, h2]
        · have h2' : ¬ k' = q := fun h3 => h2 h3.symm
          simp [dictInsert, dictGet, h2, h2']
      · by_cases h2 : k' = q
        · subst h2
          simp [dictInsert, h1, dictGet]
        · simp [dictInsert, h1, dictGet, h2, ih]

lemma lookup_insert_ids {α : Type} (s : α) (q : String) :
    ∀ (ids : List Nat) (d : List (String × α)),
      dictGet q (ids.foldl (fun d i => dictInsert (toString i) s d) d)
        = if q ∈ ids.map toString then some s else dictGet q d
  | [], d => by simp
  | i :: rest, d => by
      simp only [List.foldl_cons]
      rw [lookup_insert_ids s q rest (dictInsert (toString i) s d)]
      by_cases hq : q ∈ rest.map toString
      · simp [hq]
      · rw [if_neg hq, dictGet_dictInsert]
        by_cases hi : q = toString i
        · simp [hi]
        · simp [hi, hq]

lemma lookup_fold_unhit {α : Type} (tokenize : ByteArray → Bool → Bool → List Nat)
    (q : String) :
    ∀ (l : List (String × α)) (d : List (String × α)),
      (∀ kv ∈ l, q ∉ (tokenize kv.1.toUTF8 false true).map toString) →
      dictGet q
          (l.foldl
            (fun to_bias kv =>
              (tokenize kv.1.toUTF8 false true).foldl
                (fun d input_id => dictInsert (toString input_id) kv.2 d) to_bias)
            d)
        = dictGet q d
  | [], d, _ => rfl
  | kv :: rest, d, h => by
      simp only [List.foldl_cons]
      rw [lookup_fold_unhit tokenize q rest _ (fun e he => h e (List.mem_cons_of_mem kv he)),
        lookup_insert_ids]
      rw [if_neg (h kv (List.mem_cons_self kv rest))]

/-- C7: when `logit_bias_type` is not `"tokens"`, the logit-bias map
is passed to the engine unchanged.  When it is `"tokens"`, the map passed
to the engine is obtained by tokenizing each string key — UTF-8 encoded,
with `add_bos = false` and `special = true` — and mapping every resulting
token id (rendered as a decimal string) to that key's score: for an entry
`(k, s)` of the map and any token id of `k` that no later entry's
tokenization also produces, the resulting map sends that id to `s`. -/
theorem C7_logit_bias_resolution {α : Type} (tokenize : ByteArray → Bool → Bool → List Nat)
    (lb l1 l2 : List (String × α)) (t : Option String) (k : String) (s : α) (id : Nat)
    (ht : t ≠ some "tokens")
    (hsplit : lb = l1 ++ (k, s) :: l2)
    (hid : id ∈ tokenize k.toUTF8 false true)
    (hlast : ∀ kv ∈ l2, toString id ∉ (tokenize kv.1.toUTF8 false true).map toString) :
    kwargs_logit_bias tokenize lb t = lb ∧
    kwargs_logit_bias tokenize lb (some "tokens")
      = logit_bias_tokens_to_input_ids tokenize lb ∧
    dictGet (toString id) (logit_bias_tokens_to_input_ids tokenize lb) = some s := by
  refine ⟨by simp [kwargs_logit_bias, ht], by simp [kwargs_logit_bias], ?_⟩
  unfold logit_bias_tokens_to_input_ids
  rw [hsplit, List.foldl_append, List.foldl_cons]
  rw [lookup_fold_unhit tokenize _ l2 _ hlast, lookup_insert_ids]
  rw [if_pos (List.mem_map_of_mem toString hid)]

/-- Witness for C7 at a concrete input: one bias entry `("a", 3)` whose
key tokenizes to `[7]`; with `logit_bias_type = "tokens"` the engine map
sends `"7"` to `3`, and with `logit_bias_type = null` the map is passed
through unchanged. -/
theorem C7_witness :
    kwargs_logit_bias (fun _ _ _ => [7]) [("a", (3 : Int))] none = [("a", 3)] ∧
    kwargs_logit_bias (fun _ _ _ => [7]) [("a", (3 : Int))] (some "tokens")
      = logit_bias_tokens_to_input_ids (fun _ _ _ => [7]) [("a", 3)] ∧
    dictGet "7" (logit_bias_tokens_to_input_ids (fun _ _ _ => [7]) [("a", (3 : Int))])
      = some 3 :=
  C7_logit_bias_resolution (fun _ _ _ => [7]) [("a", 3)] [] [] none "a" 3 7
    (by simp) rfl (by simp) (by simp)

/-! ## Model info (`info`, app.py 659-671)

The endpoint iterates over `_model_settings` and, for the first entry
whose `model` path equals `_llama_proxy._current_model.model_path`,
returns the alias (falling back to the path) and the current model's
`lora_path`.  If the loop falls through, Python implicitly returns `None`.

The `LlamaProxy` class itself is outside the embedded sources.  Modelled
from the spec: the registry holds "a pointer to the 'current' handle"
which is absent until a model is loaded ("fails with `NoCurrentModel` if
nothing loaded yet"), so `current` is an `Option`; reading
`.model_path` off the absent pointer raises — the `NoCurrentModel`
failure. -/

structure CurrentModel where
  model_path : String
  lora_path : Option String
  deriving DecidableEq, Repr

inductive InfoResult where
  /-- Successful response with model name and lora names (app.py 668-671). -/
  | ok (model_name : String) (lora_names : Option String)
  /-- The loop fell through: Python returns `None`. -/
  | noneReturned
  /-- No model loaded yet: attribute access on the absent current-model
  pointer raises (the spec's `NoCurrentModel`). -/
  | raisedNoCurrentModel
  deriving DecidableEq, Repr

/-- The `info` endpoint (app.py 665-671). -/
def info (current : Option CurrentModel) (settings : List ModelSettings) : InfoResult :=
  match current with
  | none => InfoResult.raisedNoCurrentModel
  | some cm =>
      match settings.find? (fun m => cm.model_path == m.model) with
      | some m => InfoResult.ok (m.model_alias.getD m.model) cm.lora_path
      | none => InfoResult.noneReturned

/-- C8: the introspection endpoint fails with the `NoCurrentModel`
failure when no model has been loaded yet; when a model is loaded and its
path matches a configured entry, it returns that entry's alias when one is
configured — falling back to the model path — together with the current
model's lora adapter path. -/
theorem C8_model_info (settings : List ModelSettings) (cm : CurrentModel)
    (m : ModelSettings)
    (hfind : settings.find? (fun e => cm.model_path == e.model) = some m) :
    info none settings = InfoResult.raisedNoCurrentModel ∧
    info (some cm) settings = InfoResult.ok (m.model_alias.getD m.model) cm.lora_path := by
  refine ⟨rfl, ?_⟩
  simp only [info, hfind]

/-- Witness for C8 at a concrete input: one configured model with an
alias; the loaded current model points at its path and carries a lora
path. -/
theorem C8_witness :
    info none [⟨"p.gguf", some "al", false⟩] = InfoResult.raisedNoCurrentModel ∧
    info (some ⟨"p.gguf", some "lora.bin"⟩) [⟨"p.gguf", some "al", false⟩]
      = InfoResult.ok "al" (some "lora.bin") :=
  C8_model_info [⟨"p.gguf", some "al", false⟩] ⟨"p.gguf", some "lora.bin"⟩
    ⟨"p.gguf", some "al", false⟩ (by decide)

/-! ## Request shaping (`create_completion`, app.py 287-323, and
`create_chat_completion`, app.py 528-553)

`create_completion` first normalizes a list-valued prompt (`assert
len(body.prompt) <= 1`, then replaces it by its element or `""`), then
builds `kwargs = body.model_dump(exclude={...})` and applies the
logit-bias, grammar and min-tokens transformations.
`create_chat_completion` does the same without the prompt step and
without `best_of` in the exclude set.

Embedding: a request body is its `model_dump` image — an
insertion-ordered association list from field name to a `Val`;
`model_dump(exclude=...)` filters keys; `kwargs[k] = v` is `dictInsert`.
A compiled grammar (`LlamaGrammar.from_string`) is marked by its own
constructor, and a `LogitsProcessorListV` holds abstract processor names —
the appended `MinTokensLogitsProcessor` is represented by its name.
Bias scores are `Int` here; the server only moves them around. -/

inductive Val where
  | vstr : String → Val
  | vstrList : List String → Val
  | vint : Int → Val
  | vbool : Bool → Val
  | vbias : List (String × Int) → Val
  /-- Compiled grammar `LlamaGrammar.from_string(g)` (app.py 314). -/
  | vcompiledGrammar : String → Val
  /-- A `LogitsProcessorList`, elements referred to by name. -/
  | vprocs : List String → Val
  /-- Python `None`. -/
  | vnull : Val
  deriving DecidableEq, Repr

def excludeCompletion : List String := ["n", "best_of", "logit_bias_type", "user", "min_tokens"]

def excludeChat : List String := ["n", "logit_bias_type", "user", "min_tokens"]

/-- Embedding of `body.model_dump(exclude=exclude)`. -/
def model_dump (body : List (String × Val)) (exclude : List String) : List (String × Val) :=
  body.filter (fun kv => !(exclude.contains kv.1))

/-- Prompt normalization (app.py 287-289): `assert len(body.prompt) <= 1`
(modelled as an error when the assertion fails), then
`body.prompt = body.prompt[0] if len(body.prompt) > 0 else ""`. -/
def normalize_prompt (body : List (String × Val)) : Except Unit (List (String × Val)) :=
  match dictGet "prompt" body with
  | some (Val.vstrList l) =>
      if l.length ≤ 1 then Except.ok (dictInsert "prompt" (Val.vstr (l.headD "")) body)
      else Except.error ()
  | _ => Except.ok body

/-- app.py 306-311 / 536-541: `kwargs["logit_bias"]` when
`body.logit_bias is not None`. -/
def apply_logit_bias (tokenize : ByteArray → Bool → Bool → List Nat)
    (body kwargs : List (String × Val)) : List (String × Val) :=
  match dictGet "logit_bias" body with
  | some (Val.vbias lb) =>
      if dictGet "logit_bias_type" body = some (Val.vstr "tokens") then
        dictInsert "logit_bias" (Val.vbias (logit_bias_tokens_to_input_ids tokenize lb)) kwargs
      else dictInsert "logit_bias" (Val.vbias lb) kwargs
  | _ => kwargs

/-- app.py 313-314 / 543-544: `kwargs["grammar"] =
llama_cpp_python.LlamaGrammar.from_string(body.grammar)` when
`body.grammar is not None`. -/
def apply_grammar (body kwargs : List (String × Val)) : List (String × Val) :=
  match dictGet "grammar" body with
  | some (Val.vstr g) => dictInsert "grammar" (Val.vcompiledGrammar g) kwargs
  | _ => kwargs

/-- app.py 316-323 / 546-553: install or extend the min-tokens logits
processor when `body.min_tokens > 0`. -/
def apply_min_tokens (body kwargs : List (String × Val)) : List (String × Val) :=
  match dictGet "min_tokens" body with
  | some (Val.vint n) =>
      if n > 0 then
        match dictGet "logits_processor" kwargs with
        | some (Val.vprocs ps) =>
            dictInsert "logits_processor" (Val.vprocs (ps ++ ["MinTokensLogitsProcessor"])) kwargs
        | some _ => kwargs
        | none => dictInsert "logits_processor" (Val.vprocs ["MinTokensLogitsProcessor"]) kwargs
      else kwargs
  | _ => kwargs

/-- The `kwargs` that `create_completion` (app.py 287-328) passes to the
engine, or the failed prompt assertion. -/
def create_completion_kwargs (tokenize : ByteArray → Bool → Bool → List Nat)
    (body : List (String × Val)) : Except Unit (List (String × Val)) :=
  match normalize_prompt body with
  | Except.error e => Except.error e
  | Except.ok body =>
      Except.ok
        (apply_min_tokens body
          (apply_grammar body
            (apply_logit_bias tokenize body (model_dump body excludeCompletion))))

/-- The `kwargs` that `create_chat_completion` (app.py 528-557) passes to
the engine. -/
def create_chat_completion_kwargs (tokenize : ByteArray → Bool → Bool → List Nat)
    (body : List (String × Val)) : List (String × Val) :=
  apply_min_tokens body
    (apply_grammar body
      (apply_logit_bias tokenize body (model_dump body excludeChat)))

lemma dictGet_dictInsert_ne {α : Type} (q k : String) (v : α) (d : List (String × α))
    (h : q ≠ k) : dictGet q (dictInsert k v d) = dictGet q d := by
  rw [dictGet_dictInsert, if_neg h]

lemma dictGet_model_dump (f : String) (exclude : List String) :
    ∀ (body : List (String × Val)),
      dictGet f (model_dump body exclude)
        = if f ∈ exclude then none else dictGet f body
  | [] => by by_cases h : f ∈ exclude <;> simp [model_dump, dictGet, h]
  | (k, v) :: rest => by
      have ih := dictGet_model_dump f exclude rest
      simp only [model_dump, List.filter_cons] at ih ⊢
      by_cases hk : k ∈ exclude
      · rw [if_neg (by simp [hk])]
        by_cases hkf : k = f
        · subst hkf
          rw [ih, if_pos hk, if_pos hk]
        · rw [ih]
          by_cases hf : f ∈ exclude
          · rw [if_pos hf, if_pos hf]
          · rw [if_neg hf, if_neg hf]
            simp [dictGet, hkf]
      · rw [if_pos (by simp [hk])]
        by_cases hkf : k = f
        · subst hkf
          rw [if_neg hk]
          simp [dictGet]
        · simp only [dictGet, hkf, if_false]
          rw [ih]

lemma apply_logit_bias_preserve (tokenize : ByteArray → Bool → Bool → List Nat)
    (body kwargs : List (String × Val)) (f : String) (h : f ≠ "logit_bias") :
    dictGet f (apply_logit_bias tokenize body kwargs) = dictGet f kwargs := by
  unfold apply_logit_bias
  split
  · split <;> exact dictGet_dictInsert_ne f "logit_bias" _ _ h
  · rfl

lemma apply_grammar_preserve (body kwargs : List (String × Val)) (f : String)
    (h : f ≠ "grammar") :
    dictGet f (apply_grammar body kwargs) = dictGet f kwargs := by
  unfold apply_grammar
  split
  · exact dictGet_dictInsert_ne f "grammar" _ _ h
  · rfl

lemma apply_min_tokens_preserve (body kwargs : List (String × Val)) (f : String)
    (h : f ≠ "logits_processor") :
    dictGet f (apply_min_tokens body kwargs) = dictGet f kwargs := by
  unfold apply_min_tokens
  split
  · split
    · split
      · exact dictGet_dictInsert_ne f "logits_processor" _ _ h
      · rfl
      · exact dictGet_dictInsert_ne f "logits_processor" _ _ h
    · rfl
  · rfl

lemma normalize_prompt_preserve (body body' : List (String × Val)) (f : String)
    (hf : f ≠ "prompt") (h : normalize_prompt body = Except.ok body') :
    dictGet f body' = dictGet f body := by
  unfold normalize_prompt at h
  split at h
  · split at h
    · cases h
      exact dictGet_dictInsert_ne f "prompt" _ _ hf
    · cases h
  · cases h
    rfl

/-- The three shaping steps applied after `model_dump`, shared by both
endpoints. -/
lemma shaping_preserve (tokenize : ByteArray → Bool → Bool → List Nat)
    (body kwargs : List (String × Val)) (f : String)
    (h1 : f ≠ "logit_bias") (h2 : f ≠ "grammar") (h3 : f ≠ "logits_processor") :
    dictGet f (apply_min_tokens body (apply_grammar body (apply_logit_bias tokenize body kwargs)))
      = dictGet f kwargs := by
  rw [apply_min_tokens_preserve _ _ _ h3, apply_grammar_preserve _ _ _ h2,
    apply_logit_bias_preserve _ _ _ _ h1]

/-- C9 counterexample: the claim allows only the `logit_bias`,
`grammar` and min-tokens transformations to alter surviving fields, but
`create_completion` also rewrites a list-valued `prompt` (a field in no
exclude set) before calling the engine: for a body whose `prompt` is
`["x"]`, the engine receives `prompt = "x"`, a different value. -/
theorem C9_counterexample :
    create_completion_kwargs (fun _ _ _ => []) [("prompt", Val.vstrList ["x"])]
      = Except.ok [("prompt", Val.vstr "x")] ∧
    excludeCompletion.contains "prompt" = false ∧
    dictGet "prompt" [("prompt", Val.vstr "x")]
      ≠ dictGet "prompt" [("prompt", Val.vstrList ["x"])] := by
  refine ⟨rfl, rfl, ?_⟩
  intro h
  simp [dictGet] at h

/-- C9 amended: for every completion and chat-completion request, the
fields `n`, `logit_bias_type`, `user` and `min_tokens` — and, for text
completion, `best_of` — are removed from the request body before the
engine is called; no other request field is removed or altered except the
documented `logit_bias`, `grammar` and min-tokens transformations and,
for text completion, the normalization of a list-valued `prompt`. -/
theorem C9_request_shaping (tokenize : ByteArray → Bool → Bool → List Nat)
    (body kw : List (String × Val)) (f g : String)
    (hok : create_completion_kwargs tokenize body = Except.ok kw)
    (hfex : f ∉ excludeCompletion)
    (hf1 : f ≠ "logit_bias") (hf2 : f ≠ "grammar") (hf3 : f ≠ "logits_processor")
    (hf4 : f ≠ "prompt")
    (hgex : g ∉ excludeChat)
    (hg1 : g ≠ "logit_bias") (hg2 : g ≠ "grammar") (hg3 : g ≠ "logits_processor") :
    dictGet "n" kw = none ∧ dictGet "best_of" kw = none ∧
    dictGet "logit_bias_type" kw = none ∧ dictGet "user" kw = none ∧
    dictGet "min_tokens" kw = none ∧
    dictGet f kw = dictGet f body ∧
    dictGet "n" (create_chat_completion_kwargs tokenize body) = none ∧
    dictGet "logit_bias_type" (create_chat_completion_kwargs tokenize body) = none ∧
    dictGet "user" (create_chat_completion_kwargs tokenize body) = none ∧
    dictGet "min_tokens" (create_chat_completion_kwargs tokenize body) = none ∧
    dictGet g (create_chat_completion_kwargs tokenize body) = dictGet g body := by
  have hchat : ∀ (q : String), q ≠ "logit_bias" → q ≠ "grammar" → q ≠ "logits_processor" →
      dictGet q (create_chat_completion_kwargs tokenize body)
        = if q ∈ excludeChat then none else dictGet q body := by
    intro q h1 h2 h3
    unfold create_chat_completion_kwargs
    rw [shaping_preserve tokenize body _ q h1 h2 h3, dictGet_model_dump]
  unfold create_completion_kwargs at hok
  split at hok
  · cases hok
  · rename_i body' hnorm
    cases hok
    have hcomp : ∀ (q : String), q ≠ "logit_bias" → q ≠ "grammar" → q ≠ "logits_processor" →
        dictGet q (apply_min_tokens body'
            (apply_grammar body' (apply_logit_bias tokenize body' (model_dump body'
              excludeCompletion))))
          = if q ∈ excludeCompletion then none else dictGet q body' := by
      intro q h1 h2 h3
      rw [shaping_preserve tokenize body' _ q h1 h2 h3, dictGet_model_dump]
    refine ⟨?_, ?_, ?_, ?_, ?_, ?_, ?_, ?_, ?_, ?_, ?_⟩
    · rw [hcomp "n" (by decide) (by decide) (by decide), if_pos (by decide)]
    · rw [hcomp "best_of" (by decide) (by decide) (by decide), if_pos (by decide)]
    · rw [hcomp "logit_bias_type" (by decide) (by decide) (by decide), if_pos (by decide)]
    · rw [hcomp "user" (by decide) (by decide) (by decide), if_pos (by decide)]
    · rw [hcomp "min_tokens" (by decide) (by decide) (by decide), if_pos (by decide)]
    · rw [hcomp f hf1 hf2 hf3, if_neg hfex]
      exact normalize_prompt_preserve body body' f hf4 hnorm
    · rw [hchat "n" (by decide) (by decide) (by decide), if_pos (by decide)]
    · rw [hchat "logit_bias_type" (by decide) (by decide) (by decide), if_pos (by decide)]
    · rw [hchat "user" (by decide) (by decide) (by decide), if_pos (by decide)]
    · rw [hchat "min_tokens" (by decide) (by decide) (by decide), if_pos (by decide)]
    · rw [hchat g hg1 hg2 hg3, if_neg hgex]

/-- Witness for C9 at a concrete input: a body with a string prompt, an
`n` field and a `temperature` field.  `n` is removed by both endpoints,
`temperature` survives unchanged. -/
theorem C9_witness :
    dictGet "n" [("prompt", Val.vstr "hi"), ("temperature", Val.vint 7)] = none ∧
    dictGet "best_of" [("prompt", Val.vstr "hi"), ("temperature", Val.vint 7)] = none ∧
    dictGet "logit_bias_type" [("prompt", Val.vstr "hi"), ("temperature", Val.vint 7)]
      = none ∧
    dictGet "user" [("prompt", Val.vstr "hi"), ("temperature", Val.vint 7)] = none ∧
    dictGet "min_tokens" [("prompt", Val.vstr "hi"), ("temperature", Val.vint 7)] = none ∧
    dictGet "temperature" [("prompt", Val.vstr "hi"), ("temperature", Val.vint 7)]
      = dictGet "temperature"
          [("prompt", Val.vstr "hi"), ("n", Val.vint 1), ("temperature", Val.vint 7)] ∧
    dictGet "n" (create_chat_completion_kwargs (fun _ _ _ => [])
        [("prompt", Val.vstr "hi"), ("n", Val.vint 1), ("temperature", Val.vint 7)])
      = none ∧
    dictGet "logit_bias_type" (create_chat_completion_kwargs (fun _ _ _ => [])
        [("prompt", Val.vstr "hi"), ("n", Val.vint 1), ("temperature", Val.vint 7)])
      = none ∧
    dictGet "user" (create_chat_completion_kwargs (fun _ _ _ => [])
        [("prompt", Val.vstr "hi"), ("n", Val.vint 1), ("temperature", Val.vint 7)])
      = none ∧
    dictGet "min_tokens" (create_chat_completion_kwargs (fun _ _ _ => [])
        [("prompt", Val.vstr "hi"), ("n", Val.vint 1), ("temperature", Val.vint 7)])
      = none ∧
    dictGet "temperature" (create_chat_completion_kwargs (fun _ _ _ => [])
        [("prompt", Val.vstr "hi"), ("n", Val.vint 1), ("temperature", Val.vint 7)])
      = dictGet "temperature"
          [("prompt", Val.vstr "hi"), ("n", Val.vint 1), ("temperature", Val.vint 7)] :=
  C9_request_shaping (fun _ _ _ => [])
    [("prompt", Val.vstr "hi"), ("n", Val.vint 1), ("temperature", Val.vint 7)]
    [("prompt", Val.vstr "hi"), ("temperature", Val.vint 7)]
    "temperature" "temperature" rfl (by decide) (by decide) (by decide) (by decide)
    (by decide) (by decide) (by decide) (by decide) (by decide)

/-- C10: a text-completion request whose prompt is a list is accepted
only when the list has at most one element — the `assert` fails for longer
lists, so no `kwargs` reach the engine; a one-element list is replaced by
its element and an empty list by the empty string before the engine is
called. -/
theorem C10_prompt_list_assertion (tokenize : ByteArray → Bool → Bool → List Nat)
    (body : List (String × Val)) (l : List String)
    (hp : dictGet "prompt" body = some (Val.vstrList l)) :
    (l.length > 1 → create_completion_kwargs tokenize body = Except.error ()) ∧
    (l.length ≤ 1 →
      normalize_prompt body
        = Except.ok (dictInsert "prompt" (Val.vstr (l.headD "")) body)) ∧
    (l.length ≤ 1 → ∀ kw, create_completion_kwargs tokenize body = Except.ok kw →
      dictGet "prompt" kw = some (Val.vstr (l.headD ""))) := by
  refine ⟨?_, ?_, ?_⟩
  · intro hlen
    have hnorm : normalize_prompt body = Except.error () := by
      simp only [normalize_prompt, hp]
      rw [if_neg (by omega)]
    unfold create_completion_kwargs
    rw [hnorm]
  · intro hlen
    simp only [normalize_prompt, hp]
    rw [if_pos hlen]
  · intro hlen kw hok
    have hnorm : normalize_prompt body
        = Except.ok (dictInsert "prompt" (Val.vstr (l.headD "")) body) := by
      simp only [normalize_prompt, hp]
      rw [if_pos hlen]
    unfold create_completion_kwargs at hok
    simp only [hnorm] at hok
    cases hok
    rw [shaping_preserve tokenize _ _ "prompt" (by decide) (by decide) (by decide),
      dictGet_model_dump, if_neg (by decide), dictGet_dictInsert, if_pos rfl]

/-- Witness for C10 at concrete inputs: a two-element prompt list fails
the assertion; `["a"]` becomes `"a"` and `[]` becomes `""`. -/
theorem C10_witness :
    create_completion_kwargs (fun _ _ _ => []) [("prompt", Val.vstrList ["a", "b"])]
      = Except.error () ∧
    normalize_prompt [("prompt", Val.vstrList ["a"])]
      = Except.ok [("prompt", Val.vstr "a")] ∧
    normalize_prompt [("prompt", Val.vstrList [])]
      = Except.ok [("prompt", Val.vstr "")] := by
  refine ⟨?_, ?_, ?_⟩
  · exact (C10_prompt_list_assertion (fun _ _ _ => [])
      [("prompt", Val.vstrList ["a", "b"])] ["a", "b"] rfl).1 (by decide)
  · exact (C10_prompt_list_assertion (fun _ _ _ => [])
      [("prompt", Val.vstrList ["a"])] ["a"] rfl).2.1 (by decide)
  · exact (C10_prompt_list_assertion (fun _ _ _ => [])
      [("prompt", Val.vstrList [])] [] rfl).2.1 (by decide)

end LlamaServer
